import Mathlib

/-!
Verification development for the twinkly-shaders LED driver.

The definitions below are a shallow embedding of the TypeScript sources
(`src/unnamed/part_000`, the Deno driver containing `twinkly.ts` and the
realtime `main.ts`, plus `src/src/main.ts`).  JS `Uint8Array` buffers are
modelled as `List Nat` whose entries are kept below 256 by the same modular
coercion JS applies on store; JS numbers are modelled as `ℚ` where fractional
arithmetic matters (color interpolation, the stripes traversal condition) and
as `Nat` where only integer values occur.  Fallible code is modelled with
`Except String`.
-/

namespace TwinklyShaders

/-- JS `Uint8Array` element coercion on store: the value is truncated toward
zero and reduced modulo 256 (`ToUint8`).  All values stored by this program
are nonnegative, so truncation is `Rat.floor`. -/
def toByteQ (v : ℚ) : Nat := v.floor.toNat % 256

/-- `ToUint8` specialised to nonnegative integers (fragment indices). -/
def toByte (v : Nat) : Nat := v % 256

/-- `Color` (`src/unnamed/part_000` line 71): `{r, g, b, w?}` with an optional
white channel.  Channels are JS numbers, modelled as `ℚ` (the stripes palette
holds fractional gamma-corrected values). -/
structure Color where
  r : ℚ
  g : ℚ
  b : ℚ
  w : Option ℚ := none
deriving DecidableEq

/-!
### Fragmentation: `sendFrameArray` (`src/unnamed/part_000` lines 308 to 319)

The loop walks the packed buffer in steps of `fragmentSize = 900`, slicing
`frame.slice(i, i + 900)` and handing each slice to `sendFrameFragment`
together with an incrementing fragment counter.  We model the sequence of
`sendFrameFragment(fragment, slice)` calls as the returned list of pairs,
in call order.
-/

/-- The body of the `for` loop of `sendFrameArray`: index `i` advances by 900
while `i < frame.length`; `frame.slice(i, i + 900)` is `(frame.drop i).take
900`. -/
def sendFrameArrayLoop (frame : List Nat) (i fragment : Nat) :
    List (Nat × List Nat) :=
  if i < frame.length then
    (fragment, (frame.drop i).take 900) ::
      sendFrameArrayLoop frame (i + 900) (fragment + 1)
  else
    []
termination_by frame.length - i
decreasing_by omega

/-- `sendFrameArray` (`src/unnamed/part_000` line 308): starts the loop at
`i = 0`, `fragment = 0`. -/
def sendFrameArray (frame : List Nat) : List (Nat × List Nat) :=
  sendFrameArrayLoop frame 0 0

/-!
### Pixel packing: `frameToBytes` (`src/unnamed/part_000` lines 321 to 346)

The source allocates `new Uint8Array(numberOfLeds * bytesPerLed)` (zero
filled) and walks the frame, storing each color channel at consecutive
offsets.  `List.set` is a no-op out of bounds, exactly like a store into a
`Uint8Array` past its end.
-/

/-- Sequential `Uint8Array` stores `buf[k] = vs[0]; buf[k+1] = vs[1]; ...`
(the bodies of the branches of `frameToBytes` perform three, respectively
four, such stores at consecutive offsets). -/
def writeBytes (buf : List Nat) (k : Nat) (vs : List Nat) : List Nat :=
  match vs with
  | [] => buf
  | v :: rest => writeBytes (buf.set k v) (k + 1) rest

/-- The 3-channel pixel encoding `[r, g, b]` (`bytesPerLed == 3` branch). -/
def pixelBytes3 (c : Color) : List Nat :=
  [toByteQ c.r, toByteQ c.g, toByteQ c.b]

/-- The 4-channel pixel encoding `[w ?? 0, r, g, b]` (`bytesPerLed == 4`
branch). -/
def pixelBytes4 (c : Color) : List Nat :=
  [toByteQ (c.w.getD 0), toByteQ c.r, toByteQ c.g, toByteQ c.b]

/-- The `for` loop of `frameToBytes`: pixel `i` writes its channels at base
offset `i * 3` (respectively `i * 4`); any other `bytesPerLed` throws. -/
def frameToBytesLoop (bytesPerLed : Nat) (frame : List Color) (i : Nat)
    (buf : List Nat) : Except String (List Nat) :=
  match frame with
  | [] => .ok buf
  | color :: rest =>
    if bytesPerLed = 3 then
      frameToBytesLoop bytesPerLed rest (i + 1)
        (writeBytes buf (i * 3) (pixelBytes3 color))
    else if bytesPerLed = 4 then
      frameToBytesLoop bytesPerLed rest (i + 1)
        (writeBytes buf (i * 4) (pixelBytes4 color))
    else
      .error ("Do not know how to handle " ++ toString bytesPerLed ++
        " bytes per led")

/-- `frameToBytes` (`src/unnamed/part_000` line 321): allocates the zero
buffer of `numberOfLeds * bytesPerLed` bytes and runs the loop from pixel
0. -/
def frameToBytes (numberOfLeds bytesPerLed : Nat) (frame : List Color) :
    Except String (List Nat) :=
  frameToBytesLoop bytesPerLed frame 0
    (List.replicate (numberOfLeds * bytesPerLed) 0)

/-- `sendFrame` (`src/unnamed/part_000` line 348): packs the frame and hands
the buffer to `sendFrameArray`; a packing error propagates and nothing is
fragmented. -/
def sendFrame (numberOfLeds bytesPerLed : Nat) (frame : List Color) :
    Except String (List (Nat × List Nat)) :=
  (frameToBytes numberOfLeds bytesPerLed frame).map sendFrameArray


/-!
### Packet layout: `sendFrameFragment` (`src/unnamed/part_000` lines 237 to 273)

The function throws when the UDP client is not initialized or the payload
exceeds 900 bytes.  Otherwise it fills a header `Uint8Array` of
`authTokenBuffer.length + 4` bytes with, in order, the protocol version byte
`0x03`, the decoded token bytes, two `0x00` reserved bytes and the fragment
index stored as a single byte, then concatenates header and payload into the
datagram and sends it to `udpAddress`, whose port the constructor (lines 106
to 112) fixes at 7777.  The sequential stores and `bytes.copy` calls produce
exactly the concatenation written below; we model the datagram handed to
`udpClient.send` together with the destination port.
-/

/-- `sendFrameFragment` (`src/unnamed/part_000` line 237). -/
def sendFrameFragment (authTokenBuffer : List Nat) (udpInitialized : Bool)
    (fragment : Nat) (frame : List Nat) : Except String (List Nat × Nat) :=
  if udpInitialized = false then
    .error "UDP client not initialized, ignoring frame"
  else if frame.length > 900 then
    .error "Cannot send frame fragment bigger than 900 in length"
  else
    .ok ((0x03 :: authTokenBuffer ++ [0x00, 0x00, toByte fragment]) ++ frame,
      7777)

/-!
### Authorized requests: `req` (`src/unnamed/part_000` lines 129 to 158)

`req(path, config, failIfNoAuth)` performs the HTTP call and returns
`res.data` on success.  On an axios error it reads `error.response.status`:
unless the status is 401 on a non-login, non-verify, not-already-retried
call, the failure is logged and `undefined` is returned.  Otherwise it runs
`loginAndVerify()` and retries the identical request once, passing
`failIfNoAuth = true` so the retried call can never recurse again.  We model
the responses the device gives to the successive attempts of one request as
an oracle indexed by the attempt number, and record the side-effect trace:
which attempts were issued and when a re-authentication was triggered.  The
`waitForUnlock` at the top of `req` and the logging are invisible to the
data flow and are elided; the lock itself is modelled in the concurrency
section below.
-/

/-- The response body of a successful login (`loginData` in the source);
only the `authentication_token` field is read by the code under study. -/
structure RespData where
  authentication_token : String
deriving DecidableEq

/-- Outcome of one axios call: the resolved `res.data`, or a rejection
carrying `error.response.status`. -/
inductive HttpOutcome where
  | success (data : RespData)
  | failure (status : Nat)
deriving DecidableEq

/-- Side effects of `req` we track: issuing attempt number `n`, and
triggering `loginAndVerify`. -/
inductive ReqEvent where
  | attempt (n : Nat)
  | reauth
deriving DecidableEq

/-- `req` (`src/unnamed/part_000` line 129).  `isLoginReq` is
`path.endsWith("/login") || path.endsWith("/verify")`; the result is the
trace of events together with the returned data (`none` models the bare
`return;` that surfaces a failure as `undefined`). -/
def req (oracle : Nat → HttpOutcome) (isLoginReq failIfNoAuth : Bool)
    (attempt : Nat) : List ReqEvent × Option RespData :=
  match oracle attempt with
  | .success d => ([.attempt attempt], some d)
  | .failure status =>
    if status ≠ 401 ∨ isLoginReq = true ∨ failIfNoAuth = true then
      ([.attempt attempt], none)
    else
      let rest := req oracle isLoginReq true (attempt + 1)
      (.attempt attempt :: .reauth :: rest.1, rest.2)
termination_by (if failIfNoAuth then 0 else 1)
decreasing_by simp_all

/-!
### Re-authentication data flow: `loginAndVerify` (`src/unnamed/part_000` lines 173 to 213)

Inside the `try` block the code posts the login request through `req`.  When
that request fails, `req` swallows the axios error and returns `undefined`,
so reading `loginData.authentication_token` throws a TypeError which lands
in the `catch`, leaving the session fields untouched.  When login succeeds,
`authToken` and `authTokenBuffer` are assigned BEFORE the verify request
runs; a failing verify is swallowed inside `req` (its path ends in
`/verify`, so `req` just logs and returns `undefined` without throwing), so
the assignment stands.  `decode` stands for the base64 decoding
`Uint8Array.from(atob(token), ...)`.  The mutex guard around the body is
modelled in the concurrency section; it is irrelevant to this single-call
data flow.
-/

/-- The session fields mutated by `loginAndVerify`. -/
structure Session where
  authToken : String
  authTokenBuffer : List Nat
deriving DecidableEq

/-- `loginAndVerify` (`src/unnamed/part_000` line 173): the new session
state, as a function of the responses to the login exchange and to the
verify exchange. -/
def loginAndVerify (s : Session) (decode : String → List Nat)
    (loginOracle verifyOracle : Nat → HttpOutcome) : Session :=
  match (req loginOracle true false 0).2 with
  | none => s
  | some loginData =>
    let s1 : Session :=
      { authToken := loginData.authentication_token,
        authTokenBuffer := decode loginData.authentication_token }
    let _ := req verifyOracle true false 0
    s1

/-!
### Interpolation: `lerp` and `lerpFrame` (`src/unnamed/part_000` lines 546 and 551 to 569)

The loop runs over `i < min(length, length)` and pushes one output pixel
per step, which is `List.zipWith`.  The `w` property of the output pixel is
always a number: the interpolation of the two inputs when both carry `w`,
and the literal `0` otherwise; we model this JS number-or-absent field with
`Option ℚ`, so the output `w` is always `some`.
-/

/-- `lerp` (`src/unnamed/part_000` line 546). -/
def lerp (a b t : ℚ) : ℚ := a + (b - a) * t

/-- `lerpFrame` (`src/unnamed/part_000` line 551). -/
def lerpFrame (f1 f2 : List Color) (t : ℚ) : List Color :=
  List.zipWith
    (fun c1 c2 =>
      { r := lerp c1.r c2.r t
        g := lerp c1.g c2.g t
        b := lerp c1.b c2.b t
        w :=
          match c1.w, c2.w with
          | some w1, some w2 => some (lerp w1 w2 t)
          | _, _ => some 0 })
    f1 f2

/-!
### Control plane: `POST /api/active` (`src/unnamed/part_000` lines 53 to 63, `src/src/main.ts` lines 80 to 108)

The handler parses the body inside a `try`: a body that is not valid JSON
makes `c.req.json()` throw; a parsed body with `body.active == null` (which
is true both when the key is absent and when it is JSON `null`) throws
explicitly.  Either way the `catch` ignores the error and the stored
`active` variable is untouched.  Otherwise `active = body.active` runs and
the opacity tween is triggered (elided here; the claim is about the stored
state and the response).  In all cases the handler responds
`c.json({ active })` with the current value of the variable.
-/

/-- The four relevant shapes of the request body. -/
inductive ActiveBody where
  | invalid
  | missingActive
  | nullActive
  | withActive (v : Bool)
deriving DecidableEq

/-- The `POST /api/active` handler: from the stored `active` value and the
body, the new stored value and the `active` field of the JSON response. -/
def postActive (active : Bool) (body : ActiveBody) : Bool × Bool :=
  let newActive :=
    match body with
    | .invalid => active
    | .missingActive => active
    | .nullActive => active
    | .withActive v => v
  (newActive, newActive)

/-!
### Stripes pattern: `gnomeDarkStripes` (`src/unnamed/part_000` lines 466 to 544)

`GnomeDarkStripesColors` is the 15-entry palette; the source then
gamma-corrects each entry (`pow(x, 2.2)`) and raises its luminosity through
an HSL round trip, in place.  Those per-entry numeric transformations
produce values outside `ℚ` and are irrelevant to the traversal and indexing
properties under study (the pattern table references whatever the palette
holds), so the palette is kept at its raw hex values here.
`GnomeDarkStripesPattern` is the 32-entry table built from the palette with
the run lengths written in the source.  `gnomeDarkStripes` walks
`forIndex < size`, sets `i = forIndex + offset`, takes
`patternIndex = i % pattern.length`, mirrors it when
`(i / pattern.length) % 2 >= 1` holds with JS real division and JS `%`
(remainder), and pushes `pattern[patternIndex]`; an out-of-bounds JS read
would push `undefined`, modelled by `getElem?`.
-/

/-- The raw 15-entry palette (`src/unnamed/part_000` lines 466 to 482). -/
def GnomeDarkStripesColors : List Color :=
  [⟨0x24, 0x1f, 0x31, none⟩, ⟨0x30, 0x22, 0x3b, none⟩,
   ⟨0x4e, 0x25, 0x4a, none⟩, ⟨0x56, 0x24, 0x4b, none⟩,
   ⟨0x5f, 0x24, 0x4c, none⟩, ⟨0x67, 0x23, 0x4d, none⟩,
   ⟨0x70, 0x23, 0x4e, none⟩, ⟨0x92, 0x1f, 0x48, none⟩,
   ⟨0xaf, 0x24, 0x38, none⟩, ⟨0xb3, 0x29, 0x31, none⟩,
   ⟨0xb8, 0x2e, 0x2a, none⟩, ⟨0xbc, 0x33, 0x23, none⟩,
   ⟨0xc1, 0x38, 0x1d, none⟩, ⟨0xc6, 0x46, 0x00, none⟩,
   ⟨0xe6, 0x61, 0x00, none⟩]

/-- `c[i]` in the source (`const c = GnomeDarkStripesColors`). -/
def gnomePaletteEntry (i : Nat) : Color :=
  GnomeDarkStripesColors.getD i ⟨0, 0, 0, none⟩

/-- `GnomeDarkStripesPattern` (`src/unnamed/part_000` lines 511 to 526):
run lengths 2, 4, 1, 1, 1, 1, 4, 4, 1, 1, 1, 1, 4, 4, 2 over the
palette. -/
def GnomeDarkStripesPattern : List Color :=
  [gnomePaletteEntry 0, gnomePaletteEntry 0,
   gnomePaletteEntry 1, gnomePaletteEntry 1, gnomePaletteEntry 1,
   gnomePaletteEntry 1,
   gnomePaletteEntry 2, gnomePaletteEntry 3, gnomePaletteEntry 4,
   gnomePaletteEntry 5,
   gnomePaletteEntry 6, gnomePaletteEntry 6, gnomePaletteEntry 6,
   gnomePaletteEntry 6,
   gnomePaletteEntry 7, gnomePaletteEntry 7, gnomePaletteEntry 7,
   gnomePaletteEntry 7,
   gnomePaletteEntry 8, gnomePaletteEntry 9, gnomePaletteEntry 10,
   gnomePaletteEntry 11,
   gnomePaletteEntry 12, gnomePaletteEntry 12, gnomePaletteEntry 12,
   gnomePaletteEntry 12,
   gnomePaletteEntry 13, gnomePaletteEntry 13, gnomePaletteEntry 13,
   gnomePaletteEntry 13,
   gnomePaletteEntry 14, gnomePaletteEntry 14]

/-- The JS remainder `x % y` for nonnegative operands:
`x - y * floor(x / y)` (JS truncates toward zero, which is `floor` on the
nonnegative values this program divides). -/
def jsMod (x y : ℚ) : ℚ := x - y * (⌊x / y⌋ : ℚ)

/-- `gnomeDarkStripes` (`src/unnamed/part_000` line 528); `offset` defaults
to 0 as in the source.  With `i = forIndex + offset`, the pushed entry is
`pattern[patternIndex]` where `patternIndex = i % pattern.length`, mirrored
to `pattern.length - 1 - patternIndex` when
`(i / pattern.length) % 2 >= 1` under JS real division and remainder. -/
def gnomeDarkStripes (size : Nat) (offset : Nat := 0) : List (Option Color) :=
  (List.range size).map (fun forIndex =>
    GnomeDarkStripesPattern[
      if 1 ≤ jsMod (((forIndex + offset : Nat) : ℚ) /
          (GnomeDarkStripesPattern.length : ℚ)) 2 then
        GnomeDarkStripesPattern.length - 1 -
          (forIndex + offset) % GnomeDarkStripesPattern.length
      else
        (forIndex + offset) % GnomeDarkStripesPattern.length]?)

/-!
### Concurrency: the mutex guard of `loginAndVerify` (`src/unnamed/part_000` lines 102, 173 to 213)

JS is single threaded: code between two `await` points runs atomically.  In
`loginAndVerify`, the `isLocked()` check and (when unlocked) the
`acquire()` call execute with no `await` between them, and `async-mutex`
marks the mutex locked synchronously inside `acquire`, so the
check-and-acquire is one atomic step.  We model a caller of
`loginAndVerify` as a four-state program:

* `start`: about to run the check-and-acquire.  If the lock is held, the
  caller moves to `waiting` (`await waitForUnlock(); return`); otherwise it
  takes the lock and moves to `crit`.
* `crit`: holds the lock; the login/verify exchange runs (several awaits,
  during which the lock stays held — collapsed into one step because the
  other caller only ever reads the lock), stores the produced token, and
  releases.
* `waiting`: parked on `waitForUnlock`; resumes (and returns without any
  exchange of its own) only once the lock is free.
* `done`: returned.

Two callers A and B share the lock and the session token.  A schedule is a
list of caller choices; a caller chosen when it cannot move (parked on a
held lock, or already done) simply does not advance, which subsumes every
interleaving of the two coroutines.  Token value 0 is the pre-existing
token, 1 the token produced by an exchange of A, 2 by an exchange of B, so
the final token identifies whose exchange the callers observe.
-/

/-- Control points of one `loginAndVerify` caller. -/
inductive Pc where
  | start
  | crit
  | waiting
  | done
deriving DecidableEq

/-- Shared state: the mutex, the session token, which callers have
performed a login/verify exchange, and both program counters. -/
structure LockState where
  lock : Bool
  tok : Fin 3
  didA : Bool
  didB : Bool
  pcA : Pc
  pcB : Pc
deriving DecidableEq

/-- One step of caller A. -/
def stepA (s : LockState) : LockState :=
  match s.pcA with
  | .start =>
    if s.lock then { s with pcA := .waiting }
    else { s with lock := true, pcA := .crit }
  | .crit => { s with tok := 1, didA := true, lock := false, pcA := .done }
  | .waiting => if s.lock then s else { s with pcA := .done }
  | .done => s

/-- One step of caller B. -/
def stepB (s : LockState) : LockState :=
  match s.pcB with
  | .start =>
    if s.lock then { s with pcB := .waiting }
    else { s with lock := true, pcB := .crit }
  | .crit => { s with tok := 2, didB := true, lock := false, pcB := .done }
  | .waiting => if s.lock then s else { s with pcB := .done }
  | .done => s

/-- One scheduled step: `false` runs caller A, `true` runs caller B. -/
def step (s : LockState) (who : Bool) : LockState :=
  if who then stepB s else stepA s

/-- Run a schedule. -/
def run (s : LockState) (sched : List Bool) : LockState :=
  sched.foldl step s

/-- The claim scenario: caller A is inside the critical section (its
re-authentication is in flight, the lock is held, no exchange finished
yet), and caller B is about to invoke `loginAndVerify`. -/
def inflightState : LockState :=
  { lock := true, tok := 0, didA := false, didB := false,
    pcA := .crit, pcB := .start }

/-- The states reachable once B has invoked `loginAndVerify` while the
lock is held: B parked; A finished and B still parked; both done. -/
def reachedStates : List LockState :=
  [⟨true, 0, false, false, .crit, .waiting⟩,
   ⟨false, 1, true, false, .done, .waiting⟩,
   ⟨false, 1, true, false, .done, .done⟩]

/-- Closed form of the fragmentation loop: from position `i` it produces
`ceil((length - i) / 900)` fragments, the k-th being the 900-byte slice at
`i + 900 * k` with fragment counter `fragment + k`. -/
theorem sendFrameArrayLoop_eq (frame : List Nat) (i fragment : Nat) :
    sendFrameArrayLoop frame i fragment =
      (List.range ((frame.length - i + 899) / 900)).map
        (fun k => (fragment + k, (frame.drop (i + 900 * k)).take 900)) := by
  rw [sendFrameArrayLoop]
  by_cases h : i < frame.length
  · rw [if_pos h, sendFrameArrayLoop_eq frame (i + 900) (fragment + 1)]
    have hn : (frame.length - i + 899) / 900 =
        (frame.length - (i + 900) + 899) / 900 + 1 := by omega
    rw [hn, List.range_succ_eq_map, List.map_cons, List.map_map]
    refine List.cons_eq_cons.mpr ⟨by simp, ?_⟩
    apply List.map_congr_left
    intro k _
    simp only [Function.comp_apply, Nat.succ_eq_add_one]
    have h1 : fragment + 1 + k = fragment + (k + 1) := by omega
    have h2 : i + 900 + 900 * k = i + 900 * (k + 1) := by ring
    rw [h1, h2]
  · rw [if_neg h]
    have : (frame.length - i + 899) / 900 = 0 := by omega
    rw [this]
    simp
termination_by frame.length - i
decreasing_by omega

/-- Concatenating the payloads produced from position `i` onward recovers the
remainder of the buffer. -/
theorem sendFrameArrayLoop_join (frame : List Nat) (i fragment : Nat) :
    ((sendFrameArrayLoop frame i fragment).map Prod.snd).flatten = frame.drop i := by
  rw [sendFrameArrayLoop]
  by_cases h : i < frame.length
  · rw [if_pos h]
    simp only [List.map_cons, List.flatten_cons]
    rw [sendFrameArrayLoop_join frame (i + 900) (fragment + 1)]
    have hdd : frame.drop (i + 900) = (frame.drop i).drop 900 := by
      rw [List.drop_drop, Nat.add_comm]
    rw [hdd, List.take_append_drop]
  · rw [if_neg h]
    have : frame.drop i = [] := List.drop_eq_nil_of_le (by omega)
    simp [this]
termination_by frame.length - i
decreasing_by omega

/-- C1: For every packed pixel buffer of length L, sendFrameArray produces
exactly ceil(L/900) fragments; fragment k is the slice of the buffer from
byte 900k up to byte min(900(k+1), L); each fragment has at most 900 payload
bytes; the fragments concatenated in index order equal the original buffer;
and they are handed to sendFrameFragment with strictly increasing indices
0, 1, ..., ceil(L/900)-1 in that order. -/
theorem sendFrameArray_spec (frame : List Nat) :
    (sendFrameArray frame).length = (frame.length + 899) / 900 ∧
    (∀ k, k < (sendFrameArray frame).length →
      (sendFrameArray frame)[k]? =
        some (k, (frame.drop (900 * k)).take 900)) ∧
    (∀ fp ∈ sendFrameArray frame, fp.2.length ≤ 900) ∧
    ((sendFrameArray frame).map Prod.snd).flatten = frame ∧
    (sendFrameArray frame).map Prod.fst =
      List.range ((sendFrameArray frame).length) := by
  have hchar := sendFrameArrayLoop_eq frame 0 0
  simp only [Nat.zero_add, Nat.sub_zero, List.drop_zero] at hchar
  unfold sendFrameArray
  rw [hchar]
  refine ⟨by simp, ?_, ?_, ?_, ?_⟩
  · intro k hk
    simp only [List.length_map, List.length_range] at hk
    simp [List.getElem?_map, List.getElem?_range, hk]
  · intro fp hfp
    simp only [List.mem_map, List.mem_range] at hfp
    obtain ⟨k, _, rfl⟩ := hfp
    simp
  · have := sendFrameArrayLoop_join frame 0 0
    simp only [List.drop_zero] at this
    rw [← hchar]
    exact this
  · rw [List.map_map]
    have hid : (Prod.fst ∘ fun k => (k, (frame.drop (900 * k)).take 900)) =
        fun k : Nat => k := rfl
    rw [hid]
    simp

/-- Witness for C1 at a concrete buffer: three bytes give one fragment, and
it is the whole buffer with index 0. -/
theorem sendFrameArray_spec_witness :
    (sendFrameArray [1, 2, 3])[0]? = some (0, [1, 2, 3]) := by
  have h := sendFrameArray_spec [1, 2, 3]
  have h0 := h.2.1 0 (by rw [h.1]; decide)
  have he : ((([1, 2, 3] : List Nat).drop (900 * 0)).take 900) = [1, 2, 3] := by
    decide
  rw [he] at h0
  exact h0

theorem length_writeBytes (vs : List Nat) : ∀ buf k,
    (writeBytes buf k vs).length = buf.length := by
  induction vs with
  | nil => intro buf k; rfl
  | cons v rest ih =>
    intro buf k
    rw [writeBytes, ih, List.length_set]

/-- Writing `vs` at offset `k` into a buffer long enough to hold it leaves
the prefix before `k` intact and lays down `vs` right after it. -/
theorem take_writeBytes (vs : List Nat) : ∀ buf k,
    k + vs.length ≤ buf.length →
    (writeBytes buf k vs).take (k + vs.length) = buf.take k ++ vs := by
  induction vs with
  | nil => intro buf k _; simp [writeBytes]
  | cons v rest ih =>
    intro buf k h
    simp only [List.length_cons] at h
    rw [writeBytes]
    have hk : k + (rest.length + 1) = (k + 1) + rest.length := by omega
    rw [List.length_cons, hk, ih (buf.set k v) (k + 1) (by simp; omega)]
    have hset : (buf.set k v).take (k + 1) = buf.take k ++ [v] := by
      rw [List.take_succ, List.set_take,
        List.set_eq_of_length_le (by simp [List.length_take]),
        List.getElem?_set_self (by omega)]
      rfl
    rw [hset, List.append_assoc]
    rfl

/-- Closed form of the packing loop for `bytesPerLed = 3`: starting at pixel
`i` with a buffer of exactly the remaining size, it fills the rest of the
buffer with the concatenated `[r, g, b]` encodings. -/
theorem frameToBytesLoop3_eq (frame : List Color) : ∀ i buf,
    buf.length = 3 * i + 3 * frame.length →
    frameToBytesLoop 3 frame i buf =
      .ok (buf.take (3 * i) ++ (frame.map pixelBytes3).flatten) := by
  induction frame with
  | nil =>
    intro i buf h
    simp only [List.length_nil, Nat.mul_zero, Nat.add_zero] at h
    simp [frameToBytesLoop, List.take_of_length_le (le_of_eq h)]
  | cons c rest ih =>
    intro i buf h
    simp only [List.length_cons] at h
    rw [frameToBytesLoop, if_pos rfl,
      ih (i + 1) _ (by rw [length_writeBytes]; omega)]
    have hlen : (pixelBytes3 c).length = 3 := rfl
    have htake : (writeBytes buf (i * 3) (pixelBytes3 c)).take (3 * (i + 1)) =
        buf.take (3 * i) ++ pixelBytes3 c := by
      have h3 : 3 * (i + 1) = i * 3 + (pixelBytes3 c).length := by
        rw [hlen]; ring
      rw [h3, take_writeBytes _ _ _ (by rw [hlen]; omega)]
      have h4 : i * 3 = 3 * i := by ring
      rw [h4]
    rw [htake, List.map_cons, List.flatten_cons, List.append_assoc]

/-- Closed form of the packing loop for `bytesPerLed = 4`. -/
theorem frameToBytesLoop4_eq (frame : List Color) : ∀ i buf,
    buf.length = 4 * i + 4 * frame.length →
    frameToBytesLoop 4 frame i buf =
      .ok (buf.take (4 * i) ++ (frame.map pixelBytes4).flatten) := by
  induction frame with
  | nil =>
    intro i buf h
    simp only [List.length_nil, Nat.mul_zero, Nat.add_zero] at h
    simp [frameToBytesLoop, List.take_of_length_le (le_of_eq h)]
  | cons c rest ih =>
    intro i buf h
    simp only [List.length_cons] at h
    rw [frameToBytesLoop, if_neg (by decide), if_pos rfl,
      ih (i + 1) _ (by rw [length_writeBytes]; omega)]
    have hlen : (pixelBytes4 c).length = 4 := rfl
    have htake : (writeBytes buf (i * 4) (pixelBytes4 c)).take (4 * (i + 1)) =
        buf.take (4 * i) ++ pixelBytes4 c := by
      have h3 : 4 * (i + 1) = i * 4 + (pixelBytes4 c).length := by
        rw [hlen]; ring
      rw [h3, take_writeBytes _ _ _ (by rw [hlen]; omega)]
      have h4 : i * 4 = 4 * i := by ring
      rw [h4]
    rw [htake, List.map_cons, List.flatten_cons, List.append_assoc]

/-- Flattening uniform `k`-byte chunks yields `k` bytes per pixel. -/
theorem length_flatten_map_const (f : Color → List Nat) (k : Nat)
    (hf : ∀ c, (f c).length = k) : ∀ l : List Color,
    ((l.map f).flatten).length = k * l.length := by
  intro l
  induction l with
  | nil => simp
  | cons c rest ih =>
    simp only [List.map_cons, List.flatten_cons, List.length_append, ih, hf,
      List.length_cons]
    ring

/-- In a flattening of uniform `k`-byte chunks, the slice at `k * i` is the
chunk of element `i`. -/
theorem flatten_map_chunk (f : Color → List Nat) (k : Nat)
    (hf : ∀ c, (f c).length = k) : ∀ (l : List Color) (i : Nat) (c : Color),
    l[i]? = some c →
    (((l.map f).flatten).drop (k * i)).take k = f c := by
  intro l
  induction l with
  | nil => intro i c h; simp at h
  | cons hd tl ih =>
    intro i c h
    cases i with
    | zero =>
      simp only [List.getElem?_cons_zero, Option.some.injEq] at h
      subst h
      simp only [Nat.mul_zero, List.map_cons, List.flatten_cons,
        List.drop_zero]
      rw [← hf hd, List.take_left]
    | succ j =>
      simp only [List.getElem?_cons_succ] at h
      simp only [List.map_cons, List.flatten_cons]
      have hs : k * (j + 1) = (f hd).length + k * j := by rw [hf]; ring
      rw [hs, List.drop_append, ih j c h]

/-- C2: for a device with bytesPerLed = 3, encoding a frame of N pixels
(N = numberOfLeds) with frameToBytes yields exactly 3N payload bytes with
pixel i occupying bytes 3i..3i+2 in channel order [r, g, b]; for
bytesPerLed = 4 it yields exactly 4N bytes in channel order [w, r, g, b]
per pixel, with w defaulting to 0 when the pixel has no w channel.
Channel values are stored through the `Uint8Array` coercion `toByteQ`. -/
theorem frameToBytes_spec (N : Nat) (frame : List Color)
    (h : frame.length = N) :
    (frameToBytes N 3 frame = .ok ((frame.map pixelBytes3).flatten) ∧
      ((frame.map pixelBytes3).flatten).length = 3 * N ∧
      ∀ i c, frame[i]? = some c →
        (((frame.map pixelBytes3).flatten).drop (3 * i)).take 3 =
          [toByteQ c.r, toByteQ c.g, toByteQ c.b]) ∧
    (frameToBytes N 4 frame = .ok ((frame.map pixelBytes4).flatten) ∧
      ((frame.map pixelBytes4).flatten).length = 4 * N ∧
      ∀ i c, frame[i]? = some c →
        (((frame.map pixelBytes4).flatten).drop (4 * i)).take 4 =
          [toByteQ (c.w.getD 0), toByteQ c.r, toByteQ c.g, toByteQ c.b]) := by
  constructor
  · refine ⟨?_, ?_, ?_⟩
    · unfold frameToBytes
      rw [frameToBytesLoop3_eq frame 0 _ (by simp; omega)]
      simp
    · rw [length_flatten_map_const pixelBytes3 3 (fun c => rfl) frame, h]
    · exact fun i c hc => flatten_map_chunk pixelBytes3 3 (fun c => rfl)
        frame i c hc
  · refine ⟨?_, ?_, ?_⟩
    · unfold frameToBytes
      rw [frameToBytesLoop4_eq frame 0 _ (by simp; omega)]
      simp
    · rw [length_flatten_map_const pixelBytes4 4 (fun c => rfl) frame, h]
    · exact fun i c hc => flatten_map_chunk pixelBytes4 4 (fun c => rfl)
        frame i c hc

/-- Witness for C2 on a concrete 2-pixel frame. -/
theorem frameToBytes_spec_witness :
    frameToBytes 2 3 [⟨1, 2, 3, none⟩, ⟨4, 5, 6, some 7⟩] =
      .ok [1, 2, 3, 4, 5, 6] := by
  have h :=
    (frameToBytes_spec 2 [⟨1, 2, 3, none⟩, ⟨4, 5, 6, some 7⟩] rfl).1.1
  rw [h]
  rfl

/-- C8 counterexample: with bytesPerLed = 5 (unsupported) and an empty
frame, frameToBytes raises no error at all; it returns the zero-filled
buffer of numberOfLeds * bytesPerLed bytes, and sendFrame hands a fragment
to the UDP send path. -/
theorem sendFrame_bad_bytesPerLed_counterexample :
    frameToBytes 1 5 [] = .ok [0, 0, 0, 0, 0] ∧
    sendFrame 1 5 [] = .ok [(0, [0, 0, 0, 0, 0])] := by
  constructor
  · rfl
  · show Except.ok (sendFrameArray [0, 0, 0, 0, 0]) =
      Except.ok [(0, [0, 0, 0, 0, 0])]
    unfold sendFrameArray
    rw [sendFrameArrayLoop_eq]
    rfl

/-- C8 (amended): for every device configuration with bytesPerLed not 3 and
not 4, encoding any NON-EMPTY frame raises an error, sendFrame propagates
it, and in that case no fragment is handed to the UDP send path; an empty
frame, however, is encoded without error (see the counterexample). -/
theorem sendFrame_bad_bytesPerLed (N B : Nat) (frame : List Color)
    (hB3 : B ≠ 3) (hB4 : B ≠ 4) (hne : frame ≠ []) :
    ∃ msg, frameToBytes N B frame = .error msg ∧
      sendFrame N B frame = .error msg := by
  obtain ⟨c, rest, rfl⟩ := List.exists_cons_of_ne_nil hne
  refine ⟨"Do not know how to handle " ++ toString B ++ " bytes per led",
    ?_, ?_⟩
  · simp only [frameToBytes, frameToBytesLoop, if_neg hB3, if_neg hB4]
  · simp only [sendFrame, frameToBytes, frameToBytesLoop, if_neg hB3,
      if_neg hB4, Except.map]

/-- Witness for C8 (amended) at bytesPerLed = 5 and a one-pixel frame. -/
theorem sendFrame_bad_bytesPerLed_witness :
    ∃ msg, frameToBytes 1 5 [⟨1, 2, 3, none⟩] = .error msg ∧
      sendFrame 1 5 [⟨1, 2, 3, none⟩] = .error msg :=
  sendFrame_bad_bytesPerLed 1 5 [⟨1, 2, 3, none⟩] (by decide) (by decide)
    (by simp)

/-- C3: every UDP datagram built by sendFrameFragment for fragment index k
and a payload p of at most 900 bytes is exactly the byte sequence 0x03,
followed by the raw decoded authentication-token bytes, followed by 0x00,
0x00, followed by k encoded as a single byte, followed by p; its total
length is tokenByteLength + 4 + length(p), and it is addressed to device
port 7777. -/
theorem sendFrameFragment_spec (tok : List Nat) (k : Nat) (p : List Nat)
    (hp : p.length ≤ 900) :
    sendFrameFragment tok true k p =
      .ok ((0x03 :: tok ++ [0x00, 0x00, toByte k]) ++ p, 7777) ∧
    ((0x03 :: tok ++ [0x00, 0x00, toByte k]) ++ p).length =
      tok.length + 4 + p.length := by
  constructor
  · rw [sendFrameFragment, if_neg (by simp), if_neg (by omega)]
  · simp
    omega

/-- Witness for C3: a 2-byte token, fragment index 1, payload of one
byte. -/
theorem sendFrameFragment_spec_witness :
    sendFrameFragment [10, 20] true 1 [5] =
      .ok ([3, 10, 20, 0, 0, 1, 5], 7777) := by
  have h := (sendFrameFragment_spec [10, 20] 1 [5] (by decide)).1
  rw [h]
  rfl

/-- Unfolding of `req` when the attempt succeeds. -/
theorem req_success (oracle : Nat → HttpOutcome) (lg fl : Bool) (n : Nat)
    (d : RespData) (h : oracle n = .success d) :
    req oracle lg fl n = ([.attempt n], some d) := by
  rw [req, h]

/-- Unfolding of `req` when the attempt fails and the failure is surfaced
(wrong status, login request, or already-retried call). -/
theorem req_failure_final (oracle : Nat → HttpOutcome) (lg fl : Bool)
    (n s : Nat) (h : oracle n = .failure s)
    (hcond : s ≠ 401 ∨ lg = true ∨ fl = true) :
    req oracle lg fl n = ([.attempt n], none) := by
  rw [req, h]
  exact if_pos hcond

/-- Unfolding of `req` when a fresh non-login attempt fails with 401: a
re-authentication, then the retried call with `failIfNoAuth = true`. -/
theorem req_failure_retry (oracle : Nat → HttpOutcome) (n : Nat)
    (h : oracle n = .failure 401) :
    req oracle false false n =
      (.attempt n :: .reauth :: (req oracle false true (n + 1)).1,
        (req oracle false true (n + 1)).2) := by
  rw [req, h]
  exact if_neg (by simp)

/-- A call of `req` that starts with `failIfNoAuth = true` issues exactly
one attempt, whatever the oracle answers. -/
theorem req_retried_one_attempt (g : Nat → HttpOutcome) (lg : Bool)
    (n : Nat) : (req g lg true n).1 = [.attempt n] := by
  rcases hg : g n with d | s
  · rw [req_success g lg true n d hg]
  · rw [req_failure_final g lg true n s hg (Or.inr (Or.inr rfl))]

/-- Unfolding of `req` for a non-login request whose first attempt fails
with 401: one re-authentication, then the retried call. -/
theorem req_401_step (oracle : Nat → HttpOutcome)
    (h : oracle 0 = .failure 401) :
    req oracle false false 0 =
      (.attempt 0 :: .reauth :: (req oracle false true 1).1,
        (req oracle false true 1).2) := by
  have h1 := req_failure_retry oracle 0 h
  norm_num at h1
  exact h1

/-- C4: for every authorized (non-login, non-verify) request whose first
attempt fails with HTTP 401, req triggers re-authentication and retries the
identical request exactly once; a second 401 (indeed, any failure of the
retried call) is surfaced as undefined without a further retry; and, for
any oracle at all, a single request causes at most one re-authentication
and at most two attempts. -/
theorem req_unauthorized_retry (oracle : Nat → HttpOutcome)
    (h : oracle 0 = .failure 401) :
    ((req oracle false false 0).1 = [.attempt 0, .reauth, .attempt 1]) ∧
    (∀ s, oracle 1 = .failure s → (req oracle false false 0).2 = none) ∧
    (∀ d, oracle 1 = .success d → (req oracle false false 0).2 = some d) ∧
    (∀ g : Nat → HttpOutcome,
      (req g false false 0).1.count .reauth ≤ 1 ∧
      (req g false false 0).1.length ≤ 3) := by
  refine ⟨?_, ?_, ?_, ?_⟩
  · rw [req_401_step oracle h, req_retried_one_attempt]
  · intro s hs
    rw [req_401_step oracle h,
      req_failure_final oracle false true 1 s hs (Or.inr (Or.inr rfl))]
  · intro d hd
    rw [req_401_step oracle h, req_success oracle false true 1 d hd]
  · intro g
    rcases hg : g 0 with d | s
    · rw [req_success g false false 0 d hg]
      simp
    · by_cases hc : s = 401
      · subst hc
        rw [req_failure_retry g 0 hg, req_retried_one_attempt]
        simp [List.count_cons]
      · rw [req_failure_final g false false 0 s hg (Or.inl hc)]
        simp

/-- Witness for C4: first attempt 401, second attempt succeeds. -/
theorem req_unauthorized_retry_witness :
    (req (fun n => if n = 0 then .failure 401 else .success ⟨"tok"⟩)
      false false 0).1 = [.attempt 0, .reauth, .attempt 1] :=
  (req_unauthorized_retry _ (by simp)).1

/-- C6 counterexample: the token before the call is "old"; the login
request succeeds with token "new"; the verify request fails with a
transport error (HTTP 500).  loginAndVerify nevertheless leaves the session
holding "new" and its decoding, not the pre-call values: the claim that a
failing verify exchange leaves the token unchanged is false on the code. -/
theorem loginAndVerify_counterexample :
    loginAndVerify ⟨"old", [9]⟩ (fun _ => [7])
      (fun _ => .success ⟨"new"⟩) (fun _ => .failure 500) =
      ⟨"new", [7]⟩ ∧
    ("new" : String) ≠ "old" := by
  constructor
  · have hreq : (req (fun _ => HttpOutcome.success ⟨"new"⟩)
        true false 0).2 = some ⟨"new"⟩ := by
      rw [req]
    unfold loginAndVerify
    rw [hreq]
  · decide

/-- C6 (amended): when the login request of loginAndVerify fails (any
transport error, hence any status), the session token and its decoded byte
buffer remain exactly what they were before the call; but when login
succeeds, the token and buffer are updated to the newly returned login
token regardless of the verify outcome, so a failing verify does not
restore the previous token. -/
theorem loginAndVerify_token_update (s : Session)
    (decode : String → List Nat)
    (loginOracle verifyOracle : Nat → HttpOutcome) :
    ((req loginOracle true false 0).2 = none →
      loginAndVerify s decode loginOracle verifyOracle = s) ∧
    (∀ status, loginOracle 0 = .failure status →
      loginAndVerify s decode loginOracle verifyOracle = s) ∧
    (∀ d, loginOracle 0 = .success d →
      loginAndVerify s decode loginOracle verifyOracle =
        ⟨d.authentication_token, decode d.authentication_token⟩) := by
  refine ⟨?_, ?_, ?_⟩
  · intro h
    unfold loginAndVerify
    rw [h]
  · intro status hst
    unfold loginAndVerify
    rw [req_failure_final loginOracle true false 0 status hst
      (Or.inr (Or.inl rfl))]
  · intro d hd
    unfold loginAndVerify
    rw [req_success loginOracle true false 0 d hd]

/-- Witness for C6 (amended): a login failing with HTTP 500 leaves the
session untouched. -/
theorem loginAndVerify_token_update_witness :
    loginAndVerify ⟨"old", [9]⟩ (fun _ => [7]) (fun _ => .failure 500)
      (fun _ => .success ⟨"x"⟩) = ⟨"old", [9]⟩ :=
  (loginAndVerify_token_update ⟨"old", [9]⟩ (fun _ => [7])
    (fun _ => .failure 500) (fun _ => .success ⟨"x"⟩)).2.1 500 rfl

theorem lerp_zero (a b : ℚ) : lerp a b 0 = a := by
  unfold lerp
  ring

theorem lerp_one (a b : ℚ) : lerp a b 1 = b := by
  unfold lerp
  ring

/-- C7 counterexample: with t = 0 the output should equal the first frame,
including the optional w channel; but when the first pixel carries w and
the second does not, the output w is forced to 0, not the first pixel
value. -/
theorem lerpFrame_counterexample :
    lerpFrame [⟨1, 2, 3, some 5⟩] [⟨1, 2, 3, none⟩] 0 =
      [⟨1, 2, 3, some 0⟩] ∧
    (⟨1, 2, 3, some 0⟩ : Color) ≠ ⟨1, 2, 3, some 5⟩ := by
  constructor
  · show [Color.mk (lerp 1 1 0) (lerp 2 2 0) (lerp 3 3 0) (some 0)] = _
    rw [lerp_zero, lerp_zero, lerp_zero]
  · intro h
    have h5 : (some 0 : Option ℚ) = some 5 := congrArg Color.w h
    simp at h5

/-- The endpoint identities on the r, g, b channels of every pixel. -/
theorem lerpFrame_rgb (a b : List Color) (h : a.length = b.length) :
    (lerpFrame a b 0).map (fun c => (c.r, c.g, c.b)) =
        a.map (fun c => (c.r, c.g, c.b)) ∧
    (lerpFrame a b 1).map (fun c => (c.r, c.g, c.b)) =
        b.map (fun c => (c.r, c.g, c.b)) := by
  induction a generalizing b with
  | nil =>
    cases b with
    | nil => simp [lerpFrame]
    | cons c2 rest2 => simp at h
  | cons c1 rest1 ih =>
    cases b with
    | nil => simp at h
    | cons c2 rest2 =>
      simp only [List.length_cons, Nat.add_right_cancel_iff] at h
      obtain ⟨ih0, ih1⟩ := ih rest2 h
      constructor
      · simp only [lerpFrame, List.zipWith_cons_cons, List.map_cons]
        refine List.cons_eq_cons.mpr ⟨?_, ?_⟩
        · rw [lerp_zero, lerp_zero, lerp_zero]
        · exact ih0
      · simp only [lerpFrame, List.zipWith_cons_cons, List.map_cons]
        refine List.cons_eq_cons.mpr ⟨?_, ?_⟩
        · rw [lerp_one, lerp_one, lerp_one]
        · exact ih1

/-- The output pixel at any in-range position, as a function of the two
input pixels there. -/
theorem lerpFrame_getElem (a b : List Color) (t : ℚ) (i : Nat)
    (ca cb : Color) (ha : a[i]? = some ca) (hb : b[i]? = some cb) :
    (lerpFrame a b t)[i]? =
      some ⟨lerp ca.r cb.r t, lerp ca.g cb.g t, lerp ca.b cb.b t,
        match ca.w, cb.w with
        | some w1, some w2 => some (lerp w1 w2 t)
        | _, _ => some 0⟩ := by
  unfold lerpFrame
  rw [List.getElem?_zipWith, ha, hb]

/-- C7 (amended): for any two Color frames of equal length, lerpFrame at
t = 0 equals the first frame and at t = 1 equals the second on the r, g
and b channels of every pixel (exactly, since the arithmetic is rational);
at each position where BOTH input pixels carry a w channel, the full
output pixel, w included, equals the corresponding input pixel at t = 0
and at t = 1; and at each position where either input pixel lacks w, the
output pixel has w channel 0 for every t, in particular at both endpoints,
rather than the input value (see the counterexample). -/
theorem lerpFrame_endpoints (a b : List Color) (h : a.length = b.length) :
    ((lerpFrame a b 0).map (fun c => (c.r, c.g, c.b)) =
        a.map (fun c => (c.r, c.g, c.b)) ∧
      (lerpFrame a b 1).map (fun c => (c.r, c.g, c.b)) =
        b.map (fun c => (c.r, c.g, c.b))) ∧
    (∀ (i : Nat) (ca cb : Color), a[i]? = some ca → b[i]? = some cb →
      (ca.w.isSome → cb.w.isSome →
        (lerpFrame a b 0)[i]? = some ca ∧
        (lerpFrame a b 1)[i]? = some cb) ∧
      (¬(ca.w.isSome = true ∧ cb.w.isSome = true) → ∀ t : ℚ, ∃ c,
        (lerpFrame a b t)[i]? = some c ∧ c.r = lerp ca.r cb.r t ∧
        c.g = lerp ca.g cb.g t ∧ c.b = lerp ca.b cb.b t ∧
        c.w = some 0)) := by
  refine ⟨lerpFrame_rgb a b h, ?_⟩
  intro i ca cb ha hb
  constructor
  · intro hwa hwb
    obtain ⟨w1, hw1⟩ := Option.isSome_iff_exists.mp hwa
    obtain ⟨w2, hw2⟩ := Option.isSome_iff_exists.mp hwb
    constructor
    · rw [lerpFrame_getElem a b 0 i ca cb ha hb, hw1, hw2]
      simp only [lerp_zero]
      rw [← hw1]
    · rw [lerpFrame_getElem a b 1 i ca cb ha hb, hw1, hw2]
      simp only [lerp_one]
      rw [← hw2]
  · intro hnw t
    refine ⟨_, lerpFrame_getElem a b t i ca cb ha hb, rfl, rfl, rfl, ?_⟩
    rcases hca : ca.w with _ | w1
    · rfl
    · rcases hcb : cb.w with _ | w2
      · rfl
      · exact absurd ⟨by rw [hca]; rfl, by rw [hcb]; rfl⟩ hnw

/-- Witness for C7 (amended): one-pixel frames, both pixels carrying w,
at position 0 and t = 1. -/
theorem lerpFrame_endpoints_witness :
    (lerpFrame [⟨1, 2, 3, some 4⟩] [⟨5, 6, 7, some 8⟩] 1)[0]? =
      some ⟨5, 6, 7, some 8⟩ :=
  (((lerpFrame_endpoints [⟨1, 2, 3, some 4⟩] [⟨5, 6, 7, some 8⟩] rfl).2
    0 ⟨1, 2, 3, some 4⟩ ⟨5, 6, 7, some 8⟩ rfl rfl).1 rfl rfl).2

/-- C9: a POST /api/active whose body is not valid JSON or lacks the
active field (or carries active = null, which the code treats the same
way) leaves the stored active state unchanged and responds with the
previous active value; a POST whose body contains a non-null active value
sets the stored state to that value and echoes it in the response. -/
theorem postActive_spec (active : Bool) (body : ActiveBody) :
    (body = .invalid ∨ body = .missingActive ∨ body = .nullActive →
      postActive active body = (active, active)) ∧
    (∀ v, body = .withActive v → postActive active body = (v, v)) := by
  cases body <;> simp [postActive]

/-- Witness for C9: a body without the active key leaves the state and
response at the previous value. -/
theorem postActive_spec_witness :
    postActive true .missingActive = (true, true) :=
  (postActive_spec true .missingActive).1 (Or.inr (Or.inl rfl))

/-- The floor of `n / 64` over `ℚ` is Nat division. -/
theorem floor_div64 (n : Nat) :
    ⌊(n : ℚ) / 32 / 2⌋ = ((n / 64 : ℕ) : ℤ) := by
  rw [div_div]
  have h64 : ((32 : ℚ) * 2) = 64 := by norm_num
  rw [h64, Int.floor_eq_iff]
  constructor
  · rw [le_div_iff₀ (by norm_num : (0 : ℚ) < 64)]
    have hN : (n / 64) * 64 ≤ n := Nat.div_mul_le_self n 64
    push_cast
    exact_mod_cast hN
  · rw [div_lt_iff₀ (by norm_num : (0 : ℚ) < 64)]
    have hN : n < (n / 64 + 1) * 64 := by omega
    push_cast
    exact_mod_cast hN

/-- The JS condition `(i / 32) % 2 >= 1` on a nonnegative integer `i` holds
exactly when `floor(i / 32)` is odd. -/
theorem jsMod_div32 (n : Nat) :
    (1 ≤ jsMod ((n : ℚ) / 32) 2) ↔ (n / 32) % 2 = 1 := by
  unfold jsMod
  rw [floor_div64, Int.cast_natCast]
  have hdm : 64 * ((n / 64 : ℕ) : ℚ) + ((n % 64 : ℕ) : ℚ) = (n : ℚ) := by
    exact_mod_cast Nat.div_add_mod n 64
  constructor
  · intro h1
    have h32 : (32 : ℚ) ≤ ((n % 64 : ℕ) : ℚ) := by linarith
    have hN : 32 ≤ n % 64 := by exact_mod_cast h32
    omega
  · intro hmod
    have hN : 32 ≤ n % 64 := by omega
    have h32 : (32 : ℚ) ≤ ((n % 64 : ℕ) : ℚ) := by exact_mod_cast hN
    linarith

/-- The element picked at position `k`, with the JS condition replaced by
its integer form. -/
theorem gnomeDarkStripes_getElem (size offset k : Nat) (hk : k < size) :
    (gnomeDarkStripes size offset)[k]? =
      some (GnomeDarkStripesPattern[
        if ((k + offset) / 32) % 2 = 1 then 31 - (k + offset) % 32
        else (k + offset) % 32]?) := by
  have hlen : GnomeDarkStripesPattern.length = 32 := rfl
  unfold gnomeDarkStripes
  rw [List.getElem?_map]
  simp only [List.getElem?_range, hk, if_true, Option.map_some, hlen]
  norm_num
  simp only [← Nat.cast_add, jsMod_div32]

/-- C10: for every size and every integer offset, gnomeDarkStripes is total
and returns a list of exactly `size` entries, each a defined color that is
an entry of the 32-element GnomeDarkStripesPattern table, selected by
ping-pong traversal: with i = listPosition + offset, the index is i mod 32
when floor(i/32) is even and 31 - (i mod 32) when floor(i/32) is odd, so
the pattern index is always in bounds (the lookup never yields the JS
undefined). -/
theorem gnomeDarkStripes_spec (size offset : Nat) :
    (gnomeDarkStripes size offset).length = size ∧
    (∀ k, k < size → ∃ c,
      (gnomeDarkStripes size offset)[k]? = some (some c) ∧
      c ∈ GnomeDarkStripesPattern ∧
      (((k + offset) / 32) % 2 = 0 →
        GnomeDarkStripesPattern[(k + offset) % 32]? = some c) ∧
      (((k + offset) / 32) % 2 = 1 →
        GnomeDarkStripesPattern[31 - (k + offset) % 32]? = some c)) := by
  constructor
  · simp [gnomeDarkStripes]
  · intro k hk
    have hget := gnomeDarkStripes_getElem size offset k hk
    rcases Nat.mod_two_eq_zero_or_one ((k + offset) / 32) with hpar | hpar
    · rw [if_neg (by omega)] at hget
      obtain ⟨c, hc⟩ : ∃ c,
          GnomeDarkStripesPattern[(k + offset) % 32]? = some c := by
        rw [List.getElem?_eq_getElem
          (by rw [show GnomeDarkStripesPattern.length = 32 from rfl]; omega)]
        exact ⟨_, rfl⟩
      exact ⟨c, by rw [hget, hc], List.getElem?_mem hc, fun _ => hc,
        fun h1 => absurd hpar (by omega)⟩
    · rw [if_pos hpar] at hget
      obtain ⟨c, hc⟩ : ∃ c,
          GnomeDarkStripesPattern[31 - (k + offset) % 32]? = some c := by
        rw [List.getElem?_eq_getElem
          (by rw [show GnomeDarkStripesPattern.length = 32 from rfl]; omega)]
        exact ⟨_, rfl⟩
      exact ⟨c, by rw [hget, hc], List.getElem?_mem hc,
        fun h0 => absurd hpar (by omega), fun _ => hc⟩

/-- Witness for C10 at size 1, offset 0. -/
theorem gnomeDarkStripes_spec_witness :
    ∃ c, (gnomeDarkStripes 1 0)[0]? = some (some c) ∧
      c ∈ GnomeDarkStripesPattern ∧
      (((0 + 0) / 32) % 2 = 0 →
        GnomeDarkStripesPattern[(0 + 0) % 32]? = some c) ∧
      (((0 + 0) / 32) % 2 = 1 →
        GnomeDarkStripesPattern[31 - (0 + 0) % 32]? = some c) :=
  (gnomeDarkStripes_spec 1 0).2 0 (by decide)

/-- Stepping preserves the reachable set. -/
theorem reachedStates_closed :
    ∀ s ∈ reachedStates, ∀ c, step s c ∈ reachedStates := by
  decide

/-- Any schedule keeps the state in the reachable set. -/
theorem run_reachedStates (sched : List Bool) :
    ∀ s ∈ reachedStates, run s sched ∈ reachedStates := by
  induction sched with
  | nil => intro s hs; exact hs
  | cons c rest ih =>
    intro s hs
    exact ih (step s c) (reachedStates_closed s hs c)

/-- C5: if a re-authentication is in flight (caller A holds the lock, in
the critical section) when caller B invokes loginAndVerify, then B's
invocation deterministically parks it on waitForUnlock without taking the
lock, and under every schedule in which both callers finish, B has
performed no login/verify exchange of its own, A's single exchange is the
only one, and the session token both callers observe afterwards is the one
A's exchange produced (token 1). -/
theorem loginAndVerify_concurrent_single_exchange (sched : List Bool)
    (hdone : (run (stepB inflightState) sched).pcA = .done ∧
      (run (stepB inflightState) sched).pcB = .done) :
    stepB inflightState =
      ⟨true, 0, false, false, .crit, .waiting⟩ ∧
    (run (stepB inflightState) sched).didB = false ∧
    (run (stepB inflightState) sched).didA = true ∧
    (run (stepB inflightState) sched).tok = 1 := by
  refine ⟨by decide, ?_⟩
  have h0 : stepB inflightState ∈ reachedStates := by decide
  have h := run_reachedStates sched (stepB inflightState) h0
  simp only [reachedStates, List.mem_cons, List.not_mem_nil, or_false] at h
  rcases h with h | h | h <;> rw [h] at hdone ⊢
  · exact absurd hdone.1 (by decide)
  · exact absurd hdone.2 (by decide)
  · exact ⟨rfl, rfl, rfl⟩

/-- Witness for C5: the schedule that lets A finish its exchange, then
resumes B. -/
theorem loginAndVerify_concurrent_single_exchange_witness :
    (run (stepB inflightState) [false, true]).tok = 1 :=
  (loginAndVerify_concurrent_single_exchange [false, true]
    (by decide)).2.2.2

end TwinklyShaders
